import Mathlib

/-!
Shallow embedding of the inventory ledger and batch-allocation engine of
the "inventario-bodega" application (src/inventario-bodega/src/App.jsx):
the handlers `handleProcessEvent` (ingreso / venta / devolucion),
`handleUndoSale` and `handleReturn`, over an explicit database state.

Modelling conventions:
  * JS numbers used as quantities and prices are modelled as ℚ.
  * ISO timestamps and `Date.now()` are modelled by a Nat clock stored in
    the state; each accepted mutating operation advances it by one, so
    `created_at` values grow along the run.
  * IndexedDB object stores are lists kept in key order: `batches` and
    `returns` use auto-increment Nat keys (`nextBatchId`, `nextReturnId`);
    `sales` uses the explicit string key `SALE-<now>`; `getAll` returns a
    store in key order, which for the append-only Nat-keyed stores is the
    list order of the model.
  * `Array.prototype.sort` is stable, so the FIFO sort by `created_at` is
    modelled by a stable insertion sort over the key-ordered `getAll` list.
  * JS truthiness of `x || y` on numbers (0 falsy) and strings ("" falsy)
    is modelled by the `jsOr*` helpers; absent fields are `Option`.
-/

namespace Bodega

/-- JS `a || d` for an optional number: `none` (undefined) and `0` are falsy. -/
def jsOrQ (a : Option ℚ) (d : ℚ) : ℚ :=
  match a with
  | none => d
  | some x => if x = 0 then d else x

/-- JS `a || d` for a number already known to be present: `0` is falsy. -/
def jsQOr (x d : ℚ) : ℚ := if x = 0 then d else x

/-- JS `a || d` for an optional string: `none` (undefined) and `""` are falsy. -/
def jsOrStr (a : Option String) (d : String) : String :=
  match a with
  | none => d
  | some s => if s = "" then d else s

/-- JS `a || d` for a string already known to be present: `""` is falsy. -/
def jsStrOr (s d : String) : String := if s = "" then d else s

/-- JS truthiness of an optional string field. -/
def strTruthy (a : Option String) : Bool :=
  match a with
  | none => false
  | some s => s != ""

/-- Does the first character list lead the second one? -/
def charsLead : List Char → List Char → Bool
  | [], _ => true
  | _ :: _, [] => false
  | a :: as, b :: bs => a == b && charsLead as bs

/-- JS `s.startsWith(p)`, computed on the underlying character lists. -/
def strStartsWith (s p : String) : Bool := charsLead p.data s.data

/-- A record of the `products` store (keyed by `sku`). -/
structure Product where
  sku : String
  name : String
  category : String
  default_purchase_price : ℚ
  default_sale_price : ℚ
  created_at : Nat
deriving Repr, DecidableEq

/-- A record of the `batches` store (auto-increment key `id`). -/
structure Batch where
  id : Nat
  product_sku : String
  lot : String
  expiry : Option String
  quantity : ℚ
  purchase_price : ℚ
  created_at : Nat
  status : Option String := none
  return_id : Option Nat := none
deriving Repr, DecidableEq

/-- One entry of a sale's `batches_used` audit list. -/
structure BatchUse where
  batchId : Nat
  quantity : ℚ
  purchase_price : ℚ
deriving Repr, DecidableEq

/-- A record of the `sales` store (explicit string key `id`). -/
structure Sale where
  id : String
  timestamp : Nat
  sku : String
  product_name : String
  quantity : ℚ
  sale_price : ℚ
  total : ℚ
  status : String
  batches_used : List BatchUse
deriving Repr, DecidableEq

/-- A record of the `returns` store (auto-increment key `id`). -/
structure Ret where
  id : Nat
  sku : String
  name : String
  quantity : ℚ
  price : ℚ
  original_sale_id : Option String := none
  original_batch_id : Option Nat := none
  status : String
  rtype : Option String := none
deriving Repr, DecidableEq

/-- A record of the `movements` store (append-only audit ledger). -/
structure Movement where
  mtype : String
  sku : String
  name : String
  quantity : ℚ
  price : ℚ
  lot : Option String := none
  timestamp : Nat
  sale_id : Option String := none
  return_id : Option Nat := none
deriving Repr, DecidableEq

/-- The candidate event payload handed to `handleProcessEvent`. -/
structure Payload where
  event : String
  sku : Option String := none
  barcode : Option String := none
  name : Option String := none
  quantity : Option ℚ := none
  purchase_price : Option ℚ := none
  sale_price : Option ℚ := none
  lot : Option String := none
  expiry : Option String := none
  category : Option String := none
  timestamp : Option Nat := none
deriving Repr, DecidableEq

/-- The database state: the five object stores in key order, the two
auto-increment counters, and the clock standing in for `Date.now()`. -/
structure DB where
  products : List Product
  batches : List Batch
  sales : List Sale
  returns : List Ret
  movements : List Movement
  nextBatchId : Nat
  nextReturnId : Nat
  clock : Nat
deriving Repr, DecidableEq

/-- The empty database right after the upgrade callback created the stores
(IndexedDB auto-increment keys start at 1). -/
def initDB : DB :=
  { products := [], batches := [], sales := [], returns := [], movements := []
    nextBatchId := 1, nextReturnId := 1, clock := 0 }

/-- Outcome of a handler call: success, or the validation / business error
whose toast the handler shows before returning without further writes. -/
inductive PResult where
  | ok
  | errMissingIdentifier
  | errMissingName
  | errProductNotFound
  | errInsufficientStock
  | errOverReturn
  | errSaleNotFoundOrCancelled
  | errBatchNotFound
  | errAlreadyReturned
deriving Repr, DecidableEq

/-- The filter of the venta stock check: `b.product_sku === movement.sku
&& !b.lot?.startsWith('DEV-')` (every modelled batch carries a lot). -/
def countsForStock (sku : String) (b : Batch) : Bool :=
  b.product_sku == sku && !(strStartsWith b.lot "DEV-")

/-- `totalStock` as computed inside the venta branch: the sum of
`b.quantity || 0` over all batches passing `countsForStock`. -/
def totalStockFor (db : DB) (sku : String) : ℚ :=
  (db.batches.filter (countsForStock sku)).foldl (fun s b => s + b.quantity) 0

/-- The eligibility filter of the FIFO walk: same sku, positive quantity,
lot not starting with `DEV-`. -/
def eligibleForSale (sku : String) (b : Batch) : Bool :=
  b.product_sku == sku && decide (0 < b.quantity) && !(strStartsWith b.lot "DEV-")

/-- Stable insertion of a batch into a list sorted by `created_at`
ascending; an incoming batch goes before the first strictly later one and
after every earlier-or-equal one, so equal keys keep their input order. -/
def insertByCreated (b : Batch) : List Batch → List Batch
  | [] => [b]
  | c :: cs =>
    if b.created_at ≤ c.created_at then b :: c :: cs
    else c :: insertByCreated b cs

/-- Stable sort by `created_at` ascending, modelling the stable JS
`sort((a, b) => new Date(a.created_at) - new Date(b.created_at))`. -/
def sortByCreated : List Batch → List Batch
  | [] => []
  | b :: bs => insertByCreated b (sortByCreated bs)

/-- The FIFO consumption loop of the venta branch: walk the sorted batch
list while `remaining > 0`, take `min(batch.quantity, remaining)` from
each batch, record the take in `batches_used`, and return the updated
batch records that were `put` back. -/
def fifoLoop : List Batch → ℚ → List BatchUse × List Batch
  | [], _ => ([], [])
  | b :: rest, remaining =>
    if remaining ≤ 0 then ([], [])
    else
      let take := min b.quantity remaining
      let res := fifoLoop rest (remaining - take)
      (⟨b.id, take, b.purchase_price⟩ :: res.1,
       { b with quantity := b.quantity - take } :: res.2)

/-- `batchStore.put(batch)`: replace the record with the same key. -/
def putBatch (l : List Batch) (b : Batch) : List Batch :=
  l.map (fun c => if c.id = b.id then b else c)

/-- `soldTotal` of the devolucion branch: completed sales of the sku. -/
def soldTotalFor (db : DB) (sku : String) : ℚ :=
  (db.sales.filter (fun s => s.sku == sku && s.status == "completed")).foldl
    (fun a s => a + s.quantity) 0

/-- `returnedTotal` of the devolucion branch: all returns of the sku. -/
def returnedTotalFor (db : DB) (sku : String) : ℚ :=
  (db.returns.filter (fun r => r.sku == sku)).foldl (fun a r => a + r.quantity) 0

/-- `movement.sku = payload.sku || payload.barcode`. -/
def payloadSku (p : Payload) : String := jsOrStr p.sku (jsOrStr p.barcode "")

/-- `movement.quantity = Math.max(1, payload.quantity || 0)` — note: the
source clamps with `max`, it never floors. -/
def payloadQty (p : Payload) : ℚ := max 1 (jsOrQ p.quantity 0)

/-- `movement.price = Math.max(0, payload.purchase_price || payload.sale_price || 0)`. -/
def payloadPrice (p : Payload) : ℚ :=
  max 0 (jsOrQ p.purchase_price (jsOrQ p.sale_price 0))

/-- `handleProcessEvent` of src/inventario-bodega/src/App.jsx: validate the
payload, build the base movement record, and run the ingreso / venta /
devolucion branch.  The `db`/device-connection gates are caller-side UI
state and are assumed to have passed.  An unmatched event kind writes
nothing. -/
def handleProcessEvent (p : Payload) (db : DB) : PResult × DB :=
  if !(strTruthy p.sku) && !(strTruthy p.barcode) then (.errMissingIdentifier, db)
  else if !(strTruthy p.name) then (.errMissingName, db)
  else
    let now := db.clock
    let mSku := payloadSku p
    let mName := jsOrStr p.name ""
    let mQty := payloadQty p
    let mPrice := payloadPrice p
    let mLot := jsOrStr p.lot ("LOT-" ++ toString now)
    let mTimestamp := match p.timestamp with | none => now | some t => t
    let movement : Movement :=
      { mtype := p.event, sku := mSku, name := mName, quantity := mQty
        price := mPrice, lot := some mLot, timestamp := mTimestamp }
    if p.event = "ingreso" then
      let products' :=
        match db.products.find? (fun pr => pr.sku == mSku) with
        | some _ => db.products
        | none =>
          db.products ++
            [{ sku := mSku, name := mName
               category := jsOrStr p.category "Sin categoría"
               default_purchase_price := mPrice
               default_sale_price := jsOrQ p.sale_price (mPrice * (3 / 2))
               created_at := now }]
      let newBatch : Batch :=
        { id := db.nextBatchId, product_sku := mSku
          lot := jsStrOr mLot ("INIT-" ++ toString now)
          expiry := p.expiry, quantity := mQty, purchase_price := mPrice
          created_at := now }
      (.ok,
        { db with
            products := products'
            batches := db.batches ++ [newBatch]
            movements := db.movements ++ [{ movement with mtype := "ingreso_inventario" }]
            nextBatchId := db.nextBatchId + 1
            clock := now + 1 })
    else if p.event = "venta" then
      match db.products.find? (fun pr => pr.sku == mSku) with
      | none => (.errProductNotFound, db)
      | some product =>
        let price := jsQOr product.default_sale_price mPrice
        let totalStock := totalStockFor db mSku
        if totalStock < mQty then (.errInsufficientStock, db)
        else
          let productBatches := sortByCreated (db.batches.filter (eligibleForSale mSku))
          let walk := fifoLoop productBatches mQty
          let saleId := "SALE-" ++ toString now
          let sale : Sale :=
            { id := saleId, timestamp := mTimestamp, sku := mSku
              product_name := mName, quantity := mQty, sale_price := price
              total := mQty * price, status := "completed", batches_used := walk.1 }
          (.ok,
            { db with
                batches := walk.2.foldl putBatch db.batches
                sales := db.sales ++ [sale]
                movements := db.movements ++
                  [{ movement with mtype := "venta", price := price, sale_id := some saleId }]
                clock := now + 1 })
    else if p.event = "devolucion" then
      let soldTotal := soldTotalFor db mSku
      let returnedTotal := returnedTotalFor db mSku
      if soldTotal - returnedTotal < mQty then (.errOverReturn, db)
      else
        let rid := db.nextReturnId
        let ret : Ret :=
          { id := rid, sku := mSku, name := mName, quantity := mQty
            price := mPrice, original_sale_id := none, status := "completed"
            rtype := some p.event }
        let newBatch : Batch :=
          { id := db.nextBatchId, product_sku := mSku
            lot := "DEV-" ++ toString rid, expiry := p.expiry
            quantity := mQty, purchase_price := mPrice, created_at := now
            return_id := some rid }
        (.ok,
          { db with
              batches := db.batches ++ [newBatch]
              returns := db.returns ++ [ret]
              movements := db.movements ++
                [{ movement with mtype := "devolucion_venta", return_id := some rid }]
              nextBatchId := db.nextBatchId + 1
              nextReturnId := rid + 1
              clock := now + 1 })
    else (.ok, db)

/-- The fields of the event row handed to `handleUndoSale` by the UI. -/
structure SaleEventRef where
  id : String
  sku : String
  name : String
  quantity : ℚ
deriving Repr, DecidableEq

/-- `handleUndoSale` of src/inventario-bodega/src/App.jsx: look the sale up
by id, refuse when absent or already cancelled, otherwise append a Return,
a compensating `UNDO-` batch priced from `batches_used[0]`, flip the sale's
status to `cancelled` in place, and append the `anulacion_venta` movement.
A Sale record has no `price` field (only `sale_price`), so `sale.price || 0`
is 0. -/
def handleUndoSale (saleEvent : SaleEventRef) (db : DB) : PResult × DB :=
  match db.sales.find? (fun s => s.id == saleEvent.id) with
  | none => (.errSaleNotFoundOrCancelled, db)
  | some sale =>
    if sale.status = "cancelled" then (.errSaleNotFoundOrCancelled, db)
    else
      let now := db.clock
      let rid := db.nextReturnId
      let ret : Ret :=
        { id := rid, sku := saleEvent.sku, name := saleEvent.name
          quantity := saleEvent.quantity, price := 0
          original_sale_id := some saleEvent.id, status := "completed" }
      let compBatch : Batch :=
        { id := db.nextBatchId, product_sku := saleEvent.sku
          lot := "UNDO-" ++ toString rid, quantity := saleEvent.quantity
          purchase_price :=
            match sale.batches_used.head? with
            | some bu => jsQOr bu.purchase_price 0
            | none => 0
          expiry := none, created_at := now, return_id := some rid }
      let mv : Movement :=
        { mtype := "anulacion_venta", sku := saleEvent.sku
          name := saleEvent.name, quantity := saleEvent.quantity, price := 0
          timestamp := now, sale_id := some saleEvent.id, return_id := some rid }
      (.ok,
        { db with
            sales := db.sales.map
              (fun s => if s.id = saleEvent.id then { s with status := "cancelled" } else s)
            returns := db.returns ++ [ret]
            batches := db.batches ++ [compBatch]
            movements := db.movements ++ [mv]
            nextBatchId := db.nextBatchId + 1
            nextReturnId := rid + 1
            clock := now + 1 })

/-- `handleReturn` of src/inventario-bodega/src/App.jsx.  In `ventas` mode
it records a Return for the given batch row and appends a new
`DEV-SALE-` batch with the same quantity.  In the other (`inventario`)
mode it looks the batch up by id, refuses when absent or already returned,
records a Return for the held quantity, then retags the batch `DEV-INV-`,
marks it returned and zeroes its quantity in place, and only afterwards
writes the movement from the mutated record (so that movement carries
`quantity: existing.quantity`, which has just been set to 0). -/
def handleReturn (batch : Batch) (mode : String) (db : DB) : PResult × DB :=
  if mode = "ventas" then
    let prodName :=
      match db.products.find? (fun pr => pr.sku == batch.product_sku) with
      | some pr => jsStrOr pr.name batch.product_sku
      | none => batch.product_sku
    let rid := db.nextReturnId
    let now := db.clock
    let ret : Ret :=
      { id := rid, sku := batch.product_sku, name := prodName
        quantity := batch.quantity, price := batch.purchase_price
        original_batch_id := some batch.id, status := "completed" }
    let newBatch : Batch :=
      { id := db.nextBatchId, product_sku := batch.product_sku
        lot := "DEV-SALE-" ++ toString rid, expiry := batch.expiry
        quantity := batch.quantity, purchase_price := batch.purchase_price
        created_at := now, return_id := some rid, status := some "returned" }
    let mv : Movement :=
      { mtype := "devolucion_venta", sku := batch.product_sku, name := prodName
        quantity := batch.quantity, price := batch.purchase_price
        lot := some ("DEV-SALE-" ++ toString rid), timestamp := now
        return_id := some rid }
    (.ok,
      { db with
          returns := db.returns ++ [ret]
          batches := db.batches ++ [newBatch]
          movements := db.movements ++ [mv]
          nextBatchId := db.nextBatchId + 1
          nextReturnId := rid + 1
          clock := now + 1 })
  else
    match db.batches.find? (fun b => b.id == batch.id) with
    | none => (.errBatchNotFound, db)
    | some existing =>
      if existing.status = some "returned" then (.errAlreadyReturned, db)
      else
        let prodName :=
          match db.products.find? (fun pr => pr.sku == existing.product_sku) with
          | some pr => jsStrOr pr.name existing.product_sku
          | none => existing.product_sku
        let rid := db.nextReturnId
        let now := db.clock
        let ret : Ret :=
          { id := rid, sku := existing.product_sku, name := prodName
            quantity := existing.quantity, price := existing.purchase_price
            original_batch_id := some batch.id, status := "completed"
            rtype := some "inventory_return" }
        let mutated : Batch :=
          { existing with
              lot := "DEV-INV-" ++ toString rid
              status := some "returned"
              return_id := some rid
              quantity := 0 }
        let mv : Movement :=
          { mtype := "devolucion_inventario", sku := existing.product_sku
            name := prodName, quantity := mutated.quantity
            price := existing.purchase_price, lot := some mutated.lot
            timestamp := now, return_id := some rid }
        (.ok,
          { db with
              returns := db.returns ++ [ret]
              batches := putBatch db.batches mutated
              movements := db.movements ++ [mv]
              nextReturnId := rid + 1
              clock := now + 1 })

/-- Fold a list of payloads through `handleProcessEvent`, keeping only the
state (the UI shows each result as a toast and carries on). -/
def runEvents (ps : List Payload) (db : DB) : DB :=
  ps.foldl (fun d p => (handleProcessEvent p d).2) db

/-! Concrete payloads and runs used by the scenario-level theorems.  They
follow §8 of the specification: the `GALX-001` basic flow, the two-batch
FIFO flow, the undo flow, and the devolución flow. -/

/-- Scenario §8.7: ingreso of 12 `GALX-001` at purchase 1.45, sale 2.50. -/
def pIngresoGal : Payload :=
  { event := "ingreso", sku := some "GALX-001", name := some "Galletas X"
    quantity := some 12, purchase_price := some (29 / 20), sale_price := some (5 / 2) }

/-- Scenario §8.7: venta of 5 `GALX-001`. -/
def pVenta5 : Payload :=
  { event := "venta", sku := some "GALX-001", name := some "Galletas X"
    quantity := some 5 }

/-- State after the §8.7 ingreso. -/
def dbAfterIngreso : DB := (handleProcessEvent pIngresoGal initDB).2

/-- State after the §8.7 ingreso and venta: stock 7. -/
def dbAfterVenta : DB := (handleProcessEvent pVenta5 dbAfterIngreso).2

/-- Scenario §8.8: venta of 10 against stock 7. -/
def pVenta10 : Payload :=
  { event := "venta", sku := some "GALX-001", name := some "Galletas X"
    quantity := some 10 }

/-- An ingreso with a fractional quantity 2.5 (C5). -/
def pIngresoFrac : Payload :=
  { event := "ingreso", sku := some "FRAC-001", name := some "Fraccionado"
    quantity := some (5 / 2) }

/-- Two-batch FIFO scenario: first ingreso of 5 at purchase price 1. -/
def pIngreso5A : Payload :=
  { event := "ingreso", sku := some "GALX-001", name := some "Galletas X"
    quantity := some 5, purchase_price := some 1 }

/-- Two-batch FIFO scenario: second ingreso of 5 at purchase price 2. -/
def pIngreso5B : Payload :=
  { event := "ingreso", sku := some "GALX-001", name := some "Galletas X"
    quantity := some 5, purchase_price := some 2 }

/-- Two batches B1 (id 1, created 0, qty 5) and B2 (id 2, created 1, qty 5). -/
def dbTwoBatches : DB := runEvents [pIngreso5A, pIngreso5B] initDB

/-- Two-batch FIFO scenario: venta of 7 across the two batches of 5. -/
def pVenta7 : Payload :=
  { event := "venta", sku := some "GALX-001", name := some "Galletas X"
    quantity := some 7 }

/-- Scenario §8.10: ingreso of 10 at purchase price 1.00. -/
def pIngreso10 : Payload :=
  { event := "ingreso", sku := some "GALX-001", name := some "Galletas X"
    quantity := some 10, purchase_price := some 1 }

/-- Scenario §8.10: venta of 4. -/
def pVenta4 : Payload :=
  { event := "venta", sku := some "GALX-001", name := some "Galletas X"
    quantity := some 4 }

/-- State with one completed sale `SALE-1` of 4 units (stock 6). -/
def dbBeforeUndo : DB := runEvents [pIngreso10, pVenta4] initDB

/-- The event-feed row the UI hands to `handleUndoSale` for `SALE-1`. -/
def undoRef : SaleEventRef :=
  { id := "SALE-1", sku := "GALX-001", name := "Galletas X", quantity := 4 }

/-- State after undoing `SALE-1`. -/
def dbAfterUndo : DB := (handleUndoSale undoRef dbBeforeUndo).2

/-- Generic devolución of 3 `GALX-001` units (C8). -/
def pDevolucion3 : Payload :=
  { event := "devolucion", sku := some "GALX-001", name := some "Galletas X"
    quantity := some 3 }

/-- Sell out the single 5-unit batch: stock 0, one completed sale of 5. -/
def dbSoldOut : DB := runEvents [pIngreso5A, pVenta5] initDB

/-- Sell out a 5-unit batch, then return 3 units generically. -/
def dbAfterDevolucion : DB := (handleProcessEvent pDevolucion3 dbSoldOut).2

/-- Venta of a single unit, used after the devolución (C8). -/
def pVenta1 : Payload :=
  { event := "venta", sku := some "GALX-001", name := some "Galletas X"
    quantity := some 1 }

/-- An ingreso with no prices at all: the created product's
`default_sale_price` is `0 * 1.5 = 0` (C9). -/
def pIngresoZero : Payload :=
  { event := "ingreso", sku := some "ZERO-001", name := some "Sin Precio"
    quantity := some 5 }

/-- A venta of 2 `ZERO-001` whose payload carries `sale_price` 3 (C9). -/
def pVentaZero : Payload :=
  { event := "venta", sku := some "ZERO-001", name := some "Sin Precio"
    quantity := some 2, sale_price := some 3 }

/-- State with the zero-priced product and its 5-unit batch. -/
def dbZero : DB := (handleProcessEvent pIngresoZero initDB).2

/-- The inventory row the UI hands to `handleReturn` for batch 1 of the
two-batch state: the stored record `(id 1, lot LOT-0, qty 5, price 1)`. -/
def invRow : Batch :=
  { id := 1, product_sku := "GALX-001", lot := "LOT-0", expiry := none
    quantity := 5, purchase_price := 1, created_at := 0 }

/-- Every batch in the store holds a non-negative quantity. -/
def nonnegQty (db : DB) : Prop := ∀ b ∈ db.batches, 0 ≤ b.quantity

/-- The return-balance invariant: per sku, total returned quantity never
exceeds the total quantity of completed sales. -/
def returnsBalanced (db : DB) : Prop :=
  ∀ sku : String, returnedTotalFor db sku ≤ soldTotalFor db sku

/-- The venta stock total of a batch list for one sku, in map-sum form. -/
def stockSum (sku : String) (l : List Batch) : ℚ :=
  ((l.filter (countsForStock sku)).map Batch.quantity).sum

/-- Total quantity held by a batch list. -/
def qtySum (l : List Batch) : ℚ := (l.map Batch.quantity).sum

/-- The Sale record an accepted venta appends (the `saleData` object), at
the resolved price. -/
def venSale (p : Payload) (db : DB) (price : ℚ) : Sale :=
  { id := "SALE-" ++ toString db.clock
    timestamp := match p.timestamp with | none => db.clock | some t => t
    sku := payloadSku p, product_name := jsOrStr p.name ""
    quantity := payloadQty p, sale_price := price
    total := payloadQty p * price, status := "completed"
    batches_used :=
      (fifoLoop (sortByCreated (db.batches.filter (eligibleForSale (payloadSku p))))
        (payloadQty p)).1 }

/-- Store (getAll) order: strictly increasing auto-increment ids. -/
def idBefore (a b : Batch) : Prop := a.id < b.id

instance : DecidableRel idBefore := fun a b => Nat.decLt a.id b.id

/-- The FIFO consumption order: strictly earlier `created_at`, with ties
broken by the auto-increment id. -/
def fifoBefore (a b : Batch) : Prop :=
  a.created_at < b.created_at ∨ (a.created_at = b.created_at ∧ a.id < b.id)

instance : DecidableRel fifoBefore := fun a b =>
  inferInstanceAs (Decidable
    (a.created_at < b.created_at ∨ (a.created_at = b.created_at ∧ a.id < b.id)))

/-- Two batches sharing one `created_at`, in id order (tie-break check). -/
def tieA : Batch :=
  { id := 1, product_sku := "TIE-001", lot := "A", expiry := none
    quantity := 1, purchase_price := 0, created_at := 7 }

/-- The later-id twin of `tieA` with the same `created_at`. -/
def tieB : Batch :=
  { id := 2, product_sku := "TIE-001", lot := "B", expiry := none
    quantity := 1, purchase_price := 0, created_at := 7 }

end Bodega

attribute [local semireducible] Rat.add Rat.mul Rat.inv Rat.sub Rat.ofScientific

namespace Bodega

/-- C5 counterexample: processing an ingreso whose payload quantity is the
fraction 5/2 creates a batch holding exactly 5/2 units, while the claim's
formula `max(1, floor(input))` gives 2; the two differ, so the engine does
not floor. -/
theorem claim5_quantity_floor_counterexample :
    (handleProcessEvent pIngresoFrac initDB).2.batches.map Batch.quantity = [5 / 2] ∧
    max 1 (Rat.floor (5 / 2)) = 2 ∧ ((5 : ℚ) / 2) ≠ ((2 : ℚ)) := by
  refine ⟨by decide, by decide, by decide⟩

/-- C5 (amended): the engine quantity is `max(1, quantity || 0)` with no
flooring: a valid ingreso is never rejected for its quantity and creates a
batch holding exactly `payloadQty p`; a missing quantity or one ≤ 1
(including 0 and negatives) is coerced to 1, and any quantity ≥ 1 —
fractional or not — is used unchanged. -/
theorem quantity_clamp_policy :
    (∀ (p : Payload) (db : DB), p.event = "ingreso" → strTruthy p.sku = true →
      strTruthy p.name = true →
      (handleProcessEvent p db).1 = PResult.ok ∧
      (handleProcessEvent p db).2.batches.map Batch.quantity
        = db.batches.map Batch.quantity ++ [payloadQty p]) ∧
    (∀ p : Payload, p.quantity = none → payloadQty p = 1) ∧
    (∀ (p : Payload) (x : ℚ), p.quantity = some x → x ≤ 1 → payloadQty p = 1) ∧
    (∀ (p : Payload) (x : ℚ), p.quantity = some x → 1 ≤ x → payloadQty p = x) := by
  refine ⟨fun p db hev hsku hname => ?_, fun p h => ?_, fun p x h hx => ?_, fun p x h hx => ?_⟩
  · cases hfind : db.products.find? (fun pr => pr.sku == payloadSku p) with
    | none => simp [handleProcessEvent, hev, hsku, hname, hfind]
    | some pr => simp [handleProcessEvent, hev, hsku, hname, hfind]
  · simp [payloadQty, jsOrQ, h]
  · rcases eq_or_ne x 0 with h0 | h0
    · simp [payloadQty, jsOrQ, h, h0]
    · simp only [payloadQty, jsOrQ, h, if_neg h0]
      exact max_eq_left hx
  · have h0 : x ≠ 0 := by positivity
    simp only [payloadQty, jsOrQ, h, if_neg h0]
    exact max_eq_right hx

/-- C5 witness: the clamp theorem applied to the fractional ingreso. -/
theorem quantity_clamp_policy_witness :
    (handleProcessEvent pIngresoFrac initDB).1 = PResult.ok ∧
    (handleProcessEvent pIngresoFrac initDB).2.batches.map Batch.quantity
      = initDB.batches.map Batch.quantity ++ [payloadQty pIngresoFrac] :=
  quantity_clamp_policy.1 pIngresoFrac initDB rfl (by decide) (by decide)

/-- C10: an ingreso whose sku already has a Product record leaves every
existing product untouched (the upsert only runs on a missing record) and
only appends one batch and one `ingreso_inventario` movement; sales and
returns are untouched. -/
theorem ingreso_existing_product_frame (p : Payload) (db : DB)
    (hev : p.event = "ingreso") (hsku : strTruthy p.sku = true)
    (hname : strTruthy p.name = true)
    (hexists : (db.products.find? (fun pr => pr.sku == payloadSku p)).isSome = true) :
    (handleProcessEvent p db).1 = PResult.ok ∧
    (handleProcessEvent p db).2.products = db.products ∧
    (handleProcessEvent p db).2.sales = db.sales ∧
    (handleProcessEvent p db).2.returns = db.returns ∧
    (handleProcessEvent p db).2.batches =
      db.batches ++
        [{ id := db.nextBatchId, product_sku := payloadSku p
           lot := jsStrOr (jsOrStr p.lot ("LOT-" ++ toString db.clock))
             ("INIT-" ++ toString db.clock)
           expiry := p.expiry, quantity := payloadQty p
           purchase_price := payloadPrice p, created_at := db.clock }] ∧
    (handleProcessEvent p db).2.movements =
      db.movements ++
        [{ mtype := "ingreso_inventario", sku := payloadSku p
           name := jsOrStr p.name "", quantity := payloadQty p
           price := payloadPrice p
           lot := some (jsOrStr p.lot ("LOT-" ++ toString db.clock))
           timestamp := match p.timestamp with | none => db.clock | some t => t }] := by
  obtain ⟨pr, hpr⟩ := Option.isSome_iff_exists.mp hexists
  simp [handleProcessEvent, hev, hsku, hname, hpr]

/-- C10 witness: re-ingreso of the already-registered `GALX-001`. -/
theorem ingreso_existing_product_frame_witness :
    (handleProcessEvent pIngreso5A dbAfterIngreso).2.products = dbAfterIngreso.products ∧
    (handleProcessEvent pIngreso5A dbAfterIngreso).2.sales = dbAfterIngreso.sales :=
  ⟨(ingreso_existing_product_frame pIngreso5A dbAfterIngreso rfl (by decide) (by decide)
      (by decide)).2.1,
   (ingreso_existing_product_frame pIngreso5A dbAfterIngreso rfl (by decide) (by decide)
      (by decide)).2.2.1⟩

/-- C1: a venta whose clamped quantity exceeds the total available (non
`DEV-`) stock of its sku is rejected with the insufficient-stock error and
mutates nothing: the whole state — batches, sales, movements — is exactly
the one before the event. -/
theorem venta_insufficient_stock_rejected (p : Payload) (db : DB)
    (hev : p.event = "venta")
    (hsku : strTruthy p.sku = true) (hname : strTruthy p.name = true)
    (hprod : (db.products.find? (fun pr => pr.sku == payloadSku p)).isSome = true)
    (hstock : totalStockFor db (payloadSku p) < payloadQty p) :
    (handleProcessEvent p db).1 = PResult.errInsufficientStock ∧
    (handleProcessEvent p db).2 = db ∧
    (handleProcessEvent p db).2.batches = db.batches ∧
    (handleProcessEvent p db).2.sales = db.sales ∧
    (handleProcessEvent p db).2.movements = db.movements := by
  obtain ⟨product, hpr⟩ := Option.isSome_iff_exists.mp hprod
  have h : (handleProcessEvent p db) = (PResult.errInsufficientStock, db) := by
    simp [handleProcessEvent, hev, hsku, hname, hpr, hstock,
      not_le.mpr hstock]
  rw [h]
  exact ⟨rfl, rfl, rfl, rfl, rfl⟩

/-- C1 witness: scenario §8.8 — with stock 7, a venta of 10 is denied and
the state is untouched. -/
theorem venta_insufficient_stock_rejected_witness :
    (handleProcessEvent pVenta10 dbAfterVenta).1 = PResult.errInsufficientStock ∧
    (handleProcessEvent pVenta10 dbAfterVenta).2 = dbAfterVenta :=
  ⟨(venta_insufficient_stock_rejected pVenta10 dbAfterVenta rfl (by decide) (by decide)
      (by decide) (by decide)).1,
   (venta_insufficient_stock_rejected pVenta10 dbAfterVenta rfl (by decide) (by decide)
      (by decide) (by decide)).2.1⟩

/-- C6: the inventory-return path zeroes the batch in place before the
movement record is built from the mutated record, so the single
`devolucion_inventario` Movement it writes carries quantity 0 even though
the returned batch held 5 units — the Return record written in the same
transaction still shows the true quantity 5. -/
theorem inventory_return_movement_quantity_bug :
    (dbTwoBatches.batches.find? (fun b => b.id == 1)).map Batch.quantity = some 5 ∧
    (handleReturn invRow "inventario" dbTwoBatches).1 = PResult.ok ∧
    (handleReturn invRow "inventario" dbTwoBatches).2.returns.map Ret.quantity = [5] ∧
    ((handleReturn invRow "inventario" dbTwoBatches).2.movements.getLast?).map
      (fun m => (m.mtype, m.quantity)) = some ("devolucion_inventario", 0) := by
  refine ⟨by decide, by decide, by decide, by decide⟩

/-- Every character list leads itself followed by anything. -/
theorem charsLead_append_self : ∀ l r : List Char, charsLead l (l ++ r) = true
  | [], _ => rfl
  | a :: as, r => by simp [charsLead, charsLead_append_self as r]

/-- A string literally built as `p ++ s` starts with `p`. -/
theorem strStartsWith_append (p s : String) : strStartsWith (p ++ s) p = true := by
  rw [strStartsWith, String.data_append]
  exact charsLead_append_self p.data s.data

/-- Folding `+ f x` over a list from `a` adds the mapped sum to `a`. -/
theorem foldl_add_eq {α : Type} (f : α → ℚ) :
    ∀ (l : List α) (a : ℚ), List.foldl (fun s x => s + f x) a l = a + (l.map f).sum
  | [], a => by simp
  | x :: l, a => by
    rw [List.foldl_cons, foldl_add_eq f l (a + f x)]
    simp [add_assoc]

/-- C9 counterexample: the product `ZERO-001` exists with
`default_sale_price = 0`, yet the accepted venta prices the sale from the
payload (`sale_price` 3), giving total 6 ≠ 2 × 0 — `default_sale_price ||
movement.price` falls back to the payload price when the stored default is
falsy. -/
theorem claim9_sale_price_counterexample :
    dbZero.products.map Product.default_sale_price = [0] ∧
    (handleProcessEvent pVentaZero dbZero).1 = PResult.ok ∧
    (handleProcessEvent pVentaZero dbZero).2.sales.map (fun s => (s.sale_price, s.total))
      = [(3, 6)] ∧
    ((6 : ℚ) ≠ 2 * 0) := by
  refine ⟨by decide, by decide, by decide, by decide⟩

/-- C9 (amended): for an accepted venta on a product whose
`default_sale_price` is nonzero (truthy), the created Sale has status
`completed`, sale price equal to the product's `default_sale_price` with
the payload's price ignored, and `total = quantity × default_sale_price`;
the `||` fallback to the payload-derived price fires only on a falsy (zero)
stored default.  In particular the §8.7 venta totals 12.50. -/
theorem venta_resolved_sale_price :
    (∀ (p : Payload) (db : DB) (product : Product), p.event = "venta" →
      strTruthy p.sku = true → strTruthy p.name = true →
      db.products.find? (fun pr => pr.sku == payloadSku p) = some product →
      product.default_sale_price ≠ 0 →
      payloadQty p ≤ totalStockFor db (payloadSku p) →
      (handleProcessEvent p db).1 = PResult.ok ∧
      (handleProcessEvent p db).2.sales.map (fun s => (s.status, s.sale_price, s.total))
        = db.sales.map (fun s => (s.status, s.sale_price, s.total))
          ++ [("completed", product.default_sale_price,
               payloadQty p * product.default_sale_price)]) ∧
    (handleProcessEvent pVenta5 dbAfterIngreso).2.sales.map
      (fun s => (s.status, s.total)) = [("completed", 25 / 2)] := by
  constructor
  · intro p db product hev hsku hname hpr hdsp hstock
    have hnot : ¬ totalStockFor db (payloadSku p) < payloadQty p := not_lt.mpr hstock
    constructor
    · simp [handleProcessEvent, hev, hsku, hname, hpr, hnot]
    · simp [handleProcessEvent, hev, hsku, hname, hpr, hnot, jsQOr, hdsp]
  · decide

/-- C9 witness: the §8.7 venta through the general half of the theorem. -/
theorem venta_resolved_sale_price_witness :
    (handleProcessEvent pVenta5 dbAfterIngreso).1 = PResult.ok :=
  ((venta_resolved_sale_price.1 pVenta5 dbAfterIngreso
      { sku := "GALX-001", name := "Galletas X", category := "Sin categoría"
        default_purchase_price := 29 / 20, default_sale_price := 5 / 2, created_at := 0 }
      rfl (by decide) (by decide) (by decide) (by decide) (by decide))).1

/-- C8 counterexample: after selling out a 5-unit batch and accepting a
generic devolución of 3, the `DEV-1` batch holds 3 units, yet the stock
total checked by ventas is 0, the batch fails the FIFO eligibility filter,
and a subsequent venta of a single unit is denied for insufficient stock —
the returned units did not re-enter as saleable. -/
theorem claim8_dev_batch_counterexample :
    dbAfterDevolucion.batches.map (fun b => (b.lot, b.quantity)) = [("LOT-0", 0), ("DEV-1", 3)] ∧
    totalStockFor dbAfterDevolucion "GALX-001" = 0 ∧
    eligibleForSale "GALX-001"
      { id := 2, product_sku := "GALX-001", lot := "DEV-1", expiry := none
        quantity := 3, purchase_price := 0, created_at := 2, return_id := some 1 } = false ∧
    (handleProcessEvent pVenta1 dbAfterDevolucion).1 = PResult.errInsufficientStock := by
  refine ⟨by decide, by decide, by decide, by decide⟩

/-- C8 (amended): an accepted generic devolución appends a Return and a new
batch tagged `DEV-{returnId}` holding the returned quantity, but that lot
tag starts with `DEV-`, so the batch is excluded from the venta stock
total and from FIFO eligibility: the saleable stock of every sku is
exactly what it was before the devolución. -/
theorem devolucion_batch_tagged_not_saleable (p : Payload) (db : DB)
    (hev : p.event = "devolucion")
    (hsku : strTruthy p.sku = true) (hname : strTruthy p.name = true)
    (hbal : payloadQty p ≤ soldTotalFor db (payloadSku p) - returnedTotalFor db (payloadSku p)) :
    (handleProcessEvent p db).1 = PResult.ok ∧
    (handleProcessEvent p db).2.batches = db.batches ++
      [{ id := db.nextBatchId, product_sku := payloadSku p
         lot := "DEV-" ++ toString db.nextReturnId, expiry := p.expiry
         quantity := payloadQty p, purchase_price := payloadPrice p
         created_at := db.clock, return_id := some db.nextReturnId }] ∧
    (∀ (sku : String) (b : Batch), b.lot = "DEV-" ++ toString db.nextReturnId →
      countsForStock sku b = false ∧ eligibleForSale sku b = false) ∧
    (∀ sku : String, totalStockFor (handleProcessEvent p db).2 sku = totalStockFor db sku) := by
  have hnot : ¬ (soldTotalFor db (payloadSku p) - returnedTotalFor db (payloadSku p)
      < payloadQty p) := not_lt.mpr hbal
  have hbatches : (handleProcessEvent p db).2.batches = db.batches ++
      [{ id := db.nextBatchId, product_sku := payloadSku p
         lot := "DEV-" ++ toString db.nextReturnId, expiry := p.expiry
         quantity := payloadQty p, purchase_price := payloadPrice p
         created_at := db.clock, return_id := some db.nextReturnId }] := by
    simp [handleProcessEvent, hev, hsku, hname, hnot]
  refine ⟨?_, hbatches, ?_, ?_⟩
  · simp [handleProcessEvent, hev, hsku, hname, hnot]
  · intro sku b hb
    constructor
    · simp [countsForStock, hb, strStartsWith_append]
    · simp [eligibleForSale, hb, strStartsWith_append]
  · intro sku
    rw [totalStockFor, totalStockFor, hbatches, List.filter_append]
    simp [countsForStock, strStartsWith_append]

/-- Inserting into a sorted-by-created list is a permutation of cons. -/
theorem insertByCreated_perm (b : Batch) (l : List Batch) :
    (insertByCreated b l).Perm (b :: l) := by
  induction l with
  | nil => exact List.Perm.refl _
  | cons c cs ih =>
    simp only [insertByCreated]
    split
    · exact List.Perm.refl _
    · exact (ih.cons c).trans (List.Perm.swap b c cs)

/-- The stable sort by `created_at` permutes its input. -/
theorem sortByCreated_perm (l : List Batch) : (sortByCreated l).Perm l := by
  induction l with
  | nil => exact List.Perm.refl _
  | cons b bs ih => exact (insertByCreated_perm b (sortByCreated bs)).trans (ih.cons b)

/-- Inserting a batch whose id is below every id of a `fifoBefore`-sorted
list keeps the list `fifoBefore`-sorted. -/
theorem pairwise_insertByCreated (b : Batch) (l : List Batch)
    (hl : l.Pairwise fifoBefore) (hb : ∀ y ∈ l, b.id < y.id) :
    (insertByCreated b l).Pairwise fifoBefore := by
  induction l with
  | nil => simp [insertByCreated, fifoBefore]
  | cons c cs ih =>
    rcases List.pairwise_cons.mp hl with ⟨hcy, hcs⟩
    simp only [insertByCreated]
    split
    case isTrue h =>
      refine List.pairwise_cons.mpr ⟨?_, hl⟩
      intro y hy
      rcases List.mem_cons.mp hy with rfl | hy'
      · rcases lt_or_eq_of_le h with hlt | heq
        · exact Or.inl hlt
        · exact Or.inr ⟨heq, hb y (by simp)⟩
      · have hcle : c.created_at ≤ y.created_at := by
          rcases hcy y hy' with h1 | ⟨h1, _⟩
          · exact le_of_lt h1
          · exact le_of_eq h1
        rcases lt_or_eq_of_le (le_trans h hcle) with hlt | heq
        · exact Or.inl hlt
        · exact Or.inr ⟨heq, hb y (by simp [hy'])⟩
    case isFalse h =>
      refine List.pairwise_cons.mpr
        ⟨?_, ih hcs (fun y hy => hb y (by simp [hy]))⟩
      intro y hy
      rcases List.mem_cons.mp ((insertByCreated_perm b cs).mem_iff.mp hy) with rfl | hy''
      · exact Or.inl (not_le.mp h)
      · exact hcy y hy''

/-- Sorting a list whose ids strictly increase (the `getAll` key order of
the auto-increment store) yields a list sorted by `created_at` with ties
resolved by ascending id: the stable sort breaks ties deterministically. -/
theorem sortByCreated_pairwise (l : List Batch) (hl : l.Pairwise idBefore) :
    (sortByCreated l).Pairwise fifoBefore := by
  induction l with
  | nil => exact List.Pairwise.nil
  | cons b bs ih =>
    rcases List.pairwise_cons.mp hl with ⟨hby, hbs⟩
    exact pairwise_insertByCreated b (sortByCreated bs) (ih hbs)
      (fun y hy => hby y ((sortByCreated_perm bs).mem_iff.mp hy))

/-- C2: the FIFO walk consumes eligible batches in ascending `created_at`
order with ties broken by ascending id — the sort is a stable permutation
of the key-ordered store, so an id-ordered input comes out
`fifoBefore`-sorted — and on the two-batch scenario (B1 id 1 created 0 qty
5, B2 id 2 created 1 qty 5) a venta of 7 leaves B1 at 0 and B2 at 3 with
`batches_used` listing B1's take of 5 before B2's take of 2. -/
theorem venta_fifo_order :
    (∀ l : List Batch, (sortByCreated l).Perm l ∧
      (l.Pairwise idBefore → (sortByCreated l).Pairwise fifoBefore)) ∧
    (handleProcessEvent pVenta7 dbTwoBatches).1 = PResult.ok ∧
    (handleProcessEvent pVenta7 dbTwoBatches).2.batches.map (fun b => (b.id, b.quantity))
      = [(1, 0), (2, 3)] ∧
    (handleProcessEvent pVenta7 dbTwoBatches).2.sales.map Sale.batches_used
      = [[{ batchId := 1, quantity := 5, purchase_price := 1 },
          { batchId := 2, quantity := 2, purchase_price := 2 }]] := by
  refine ⟨fun l => ⟨sortByCreated_perm l, sortByCreated_pairwise l⟩,
    by decide, by decide, by decide⟩

/-- C2 witness: the sort theorem applied to a concrete tied pair — two
batches sharing `created_at` come out in id order. -/
theorem venta_fifo_order_witness :
    (sortByCreated [tieA, tieB]).Pairwise fifoBefore :=
  (venta_fifo_order.1 [tieA, tieB]).2 (by decide)

/-- Summing over an appended singleton after a filter adds the new
element's value exactly when it passes the filter. -/
theorem sumFilter_append {α : Type} (f : α → ℚ) (q : α → Bool) (l : List α) (x : α) :
    List.foldl (fun s y => s + f y) 0 ((l ++ [x]).filter q)
      = List.foldl (fun s y => s + f y) 0 (l.filter q)
        + (if q x = true then f x else 0) := by
  rw [List.filter_append, List.foldl_append]
  by_cases h : q x = true <;> simp [h]

/-- Appending a sale keeps the balance: the completed-sales total can only
grow, the returns total is untouched. -/
theorem balanced_after_sale (db : DB) (s : Sale) (h : returnsBalanced db)
    (hq : 0 ≤ s.quantity) (st : DB)
    (hsales : st.sales = db.sales ++ [s]) (hret : st.returns = db.returns) :
    returnsBalanced st := by
  intro sku
  have h1 : returnedTotalFor st sku = returnedTotalFor db sku := by
    rw [returnedTotalFor, returnedTotalFor, hret]
  have h2 : soldTotalFor st sku = soldTotalFor db sku
      + (if (s.sku == sku && s.status == "completed") = true then s.quantity else 0) := by
    rw [soldTotalFor, soldTotalFor, hsales]
    exact sumFilter_append Sale.quantity _ db.sales s
  rw [h1, h2]
  refine le_trans (h sku) (le_add_of_nonneg_right ?_)
  split
  · exact hq
  · exact le_refl 0

/-- Appending a return that the guard admitted keeps the balance. -/
theorem balanced_after_return (db : DB) (r : Ret) (h : returnsBalanced db)
    (hbal : returnedTotalFor db r.sku + r.quantity ≤ soldTotalFor db r.sku)
    (st : DB) (hret : st.returns = db.returns ++ [r]) (hsales : st.sales = db.sales) :
    returnsBalanced st := by
  intro sku
  have h1 : soldTotalFor st sku = soldTotalFor db sku := by
    rw [soldTotalFor, soldTotalFor, hsales]
  have h2 : returnedTotalFor st sku = returnedTotalFor db sku
      + (if (r.sku == sku) = true then r.quantity else 0) := by
    rw [returnedTotalFor, returnedTotalFor, hret]
    exact sumFilter_append Ret.quantity _ db.returns r
  rw [h1, h2]
  by_cases hsk : (r.sku == sku) = true
  · have heq : r.sku = sku := by simpa using hsk
    rw [if_pos hsk]
    exact heq ▸ hbal
  · rw [if_neg hsk, add_zero]
    exact h sku

/-- Each `handleProcessEvent` branch preserves the return balance. -/
theorem processEvent_balanced (p : Payload) (db : DB) (h : returnsBalanced db) :
    returnsBalanced (handleProcessEvent p db).2 := by
  have hq : (0 : ℚ) ≤ payloadQty p := le_trans zero_le_one (le_max_left 1 _)
  simp only [handleProcessEvent]
  split
  · exact h
  split
  · exact h
  split
  · exact h
  split
  · -- venta
    split
    · exact h
    split
    · exact h
    · exact balanced_after_sale db _ h hq _ rfl rfl
  split
  · -- devolucion
    split
    · exact h
    case isFalse hcond =>
      refine balanced_after_return db _ h ?_ _ rfl rfl
      have : payloadQty p ≤ soldTotalFor db (payloadSku p)
          - returnedTotalFor db (payloadSku p) := not_lt.mp hcond
      have h2 := (le_sub_iff_add_le.mp this)
      calc returnedTotalFor db (payloadSku p) + payloadQty p
          = payloadQty p + returnedTotalFor db (payloadSku p) := by ring
        _ ≤ soldTotalFor db (payloadSku p) := h2
  · exact h

/-- C4 counterexample: ingreso 10, venta 4 (`SALE-1`, completed), then
`handleUndoSale` on `SALE-1`: the undo appends a Return of 4 while
flipping the sale to `cancelled`, so the returned total 4 exceeds the
completed-sales total 0 — the balance invariant does not hold at every
reachable state. -/
theorem claim4_balance_counterexample :
    (handleUndoSale undoRef dbBeforeUndo).1 = PResult.ok ∧
    returnedTotalFor dbAfterUndo "GALX-001" = 4 ∧
    soldTotalFor dbAfterUndo "GALX-001" = 0 ∧
    ¬ (returnedTotalFor dbAfterUndo "GALX-001" ≤ soldTotalFor dbAfterUndo "GALX-001") := by
  refine ⟨by decide, by decide, by decide, by decide⟩

/-- C4 (amended): the per-sku balance `Σ returns ≤ Σ completed sales` is
preserved by every `handleProcessEvent` event (ingreso, venta, generic
devolución) and so holds along every run of such events; a generic
devolución with `requestedQty + returnedTotal > soldTotal` is rejected
with the over-return error and leaves the state unchanged.  The invariant
is not maintained by `handleUndoSale`, which appends a Return while
removing its Sale from `completed` status. -/
theorem returns_balance_amended :
    (∀ (p : Payload) (db : DB), returnsBalanced db →
      returnsBalanced (handleProcessEvent p db).2) ∧
    (∀ (ps : List Payload) (db : DB), returnsBalanced db →
      returnsBalanced (runEvents ps db)) ∧
    (∀ (p : Payload) (db : DB), p.event = "devolucion" →
      strTruthy p.sku = true → strTruthy p.name = true →
      soldTotalFor db (payloadSku p) - returnedTotalFor db (payloadSku p) < payloadQty p →
      (handleProcessEvent p db).1 = PResult.errOverReturn ∧
      (handleProcessEvent p db).2 = db) := by
  refine ⟨processEvent_balanced, ?_, ?_⟩
  · intro ps db h
    induction ps generalizing db with
    | nil => exact h
    | cons p ps ih => exact ih _ (processEvent_balanced p db h)
  · intro p db hev hsku hname hover
    have h : handleProcessEvent p db = (PResult.errOverReturn, db) := by
      simp [handleProcessEvent, hev, hsku, hname, hover]
    rw [h]
    exact ⟨rfl, rfl⟩

/-- C4 witness: a devolución of 3 with no prior sales is rejected and
mutates nothing, and the balance survives the §8.7 run from scratch. -/
theorem returns_balance_amended_witness :
    ((handleProcessEvent pDevolucion3 dbAfterIngreso).1 = PResult.errOverReturn ∧
     (handleProcessEvent pDevolucion3 dbAfterIngreso).2 = dbAfterIngreso) ∧
    returnsBalanced (runEvents [pIngresoGal, pVenta5] initDB) :=
  ⟨returns_balance_amended.2.2 pDevolucion3 dbAfterIngreso rfl (by decide) (by decide)
      (by decide),
   returns_balance_amended.2.1 [pIngresoGal, pVenta5] initDB (fun _ => le_refl 0)⟩

/-- The batches written back by the FIFO walk keep non-negative
quantities: each take is `min(batch.quantity, remaining)`. -/
theorem fifoLoop_nonneg (l : List Batch) (r : ℚ)
    (hl : ∀ b ∈ l, 0 ≤ b.quantity) (hr : 0 ≤ r) :
    ∀ b' ∈ (fifoLoop l r).2, 0 ≤ b'.quantity := by
  induction l generalizing r with
  | nil => intro b' hb'; simp [fifoLoop] at hb'
  | cons b rest ih =>
    intro b' hb'
    simp only [fifoLoop] at hb'
    split at hb'
    · simp at hb'
    · rcases List.mem_cons.mp hb' with rfl | hmem
      · show 0 ≤ b.quantity - min b.quantity r
        exact sub_nonneg.mpr (min_le_left b.quantity r)
      · exact ih _ (fun c hc => hl c (List.mem_cons_of_mem b hc))
          (sub_nonneg.mpr (min_le_right b.quantity r)) b' hmem

/-- Every element of a `putBatch` fold comes from the accumulator or from
the written-back list. -/
theorem mem_foldl_putBatch (upds : List Batch) :
    ∀ (acc : List Batch), ∀ y ∈ upds.foldl putBatch acc, y ∈ acc ∨ y ∈ upds := by
  induction upds with
  | nil => intro acc y hy; exact Or.inl hy
  | cons u us ih =>
    intro acc y hy
    rcases ih (putBatch acc u) y hy with hacc | hus
    · rcases List.mem_map.mp hacc with ⟨c, hc, hcy⟩
      by_cases hid : c.id = u.id
      · rw [if_pos hid] at hcy
        exact Or.inr (hcy ▸ List.mem_cons_self u us)
      · rw [if_neg hid] at hcy
        exact Or.inl (hcy ▸ hc)
    · exact Or.inr (List.mem_cons_of_mem u hus)

/-- Each event handler branch keeps all batch quantities non-negative. -/
theorem processEvent_nonneg (p : Payload) (db : DB) (h : nonnegQty db) :
    nonnegQty (handleProcessEvent p db).2 := by
  have hq : (0 : ℚ) ≤ payloadQty p := le_trans zero_le_one (le_max_left 1 _)
  simp only [handleProcessEvent]
  split
  · exact h
  split
  · exact h
  split
  · -- ingreso
    intro b hb
    rcases List.mem_append.mp hb with hmem | hnew
    · exact h b hmem
    · simp only [List.mem_singleton] at hnew
      subst hnew
      exact hq
  split
  · -- venta
    split
    · exact h
    split
    · exact h
    · intro b hb
      rcases mem_foldl_putBatch _ _ b hb with hmem | hupd
      · exact h b hmem
      · refine fifoLoop_nonneg _ (payloadQty p) ?_ hq b hupd
        intro c hc
        exact h c (List.mem_filter.mp ((sortByCreated_perm _).mem_iff.mp hc)).1
  split
  · -- devolucion
    split
    · exact h
    · intro b hb
      rcases List.mem_append.mp hb with hmem | hnew
      · exact h b hmem
      · simp only [List.mem_singleton] at hnew
        subst hnew
        exact hq
  · exact h

/-- A venta's saleable-stock total is a sum of non-negative quantities. -/
theorem totalStock_nonneg (db : DB) (h : nonnegQty db) (sku : String) :
    0 ≤ totalStockFor db sku := by
  rw [totalStockFor, foldl_add_eq Batch.quantity]
  have hall : ∀ q ∈ (db.batches.filter (countsForStock sku)).map Batch.quantity, 0 ≤ q := by
    intro q hq
    rcases List.mem_map.mp hq with ⟨b, hb, rfl⟩
    exact h b (List.mem_filter.mp hb).1
  simpa using List.sum_nonneg hall

/-- Each consumption entry is bounded by the remaining quantity of the
batch it draws from. -/
theorem fifoLoop_take_bounded :
    ∀ (l : List Batch) (r : ℚ), ∀ bu ∈ (fifoLoop l r).1,
      ∃ b, b ∈ l ∧ bu.batchId = b.id ∧ bu.quantity ≤ b.quantity := by
  intro l
  induction l with
  | nil => intro r bu hbu; simp [fifoLoop] at hbu
  | cons b rest ih =>
    intro r bu hbu
    simp only [fifoLoop] at hbu
    split at hbu
    · simp at hbu
    · rcases List.mem_cons.mp hbu with rfl | hmem
      · exact ⟨b, List.mem_cons_self b rest, rfl, min_le_left _ _⟩
      · rcases ih _ bu hmem with ⟨c, hc, hid, hle⟩
        exact ⟨c, List.mem_cons_of_mem b hc, hid, hle⟩

/-- C3: starting from any state whose batches are all non-negative, every
event — in particular every accepted ingreso or venta — leaves every
individual batch with quantity ≥ 0 and every sku's saleable stock ≥ 0;
moreover each FIFO decrement is bounded by the batch's current remaining
quantity. -/
theorem stock_nonneg_invariant :
    (∀ (p : Payload) (db : DB), nonnegQty db → nonnegQty (handleProcessEvent p db).2) ∧
    (∀ (ps : List Payload) (db : DB), nonnegQty db →
      nonnegQty (runEvents ps db) ∧ ∀ sku, 0 ≤ totalStockFor (runEvents ps db) sku) ∧
    (∀ (l : List Batch) (r : ℚ), ∀ bu ∈ (fifoLoop l r).1,
      ∃ b, b ∈ l ∧ bu.batchId = b.id ∧ bu.quantity ≤ b.quantity) := by
  refine ⟨processEvent_nonneg, ?_, fifoLoop_take_bounded⟩
  intro ps db h
  have hrun : nonnegQty (runEvents ps db) := by
    induction ps generalizing db with
    | nil => exact h
    | cons p ps ih => exact ih _ (processEvent_nonneg p db h)
  exact ⟨hrun, fun sku => totalStock_nonneg _ hrun sku⟩

/-- C3 witness: the invariant run through the §8.7 scenario from the
empty database. -/
theorem stock_nonneg_invariant_witness :
    0 ≤ totalStockFor (runEvents [pIngresoGal, pVenta5] initDB) "GALX-001" :=
  ((stock_nonneg_invariant.2.1 [pIngresoGal, pVenta5] initDB
    (fun b hb => absurd hb (by simp [initDB]))).2) "GALX-001"

/-- `totalStockFor` in `stockSum` form. -/
theorem totalStock_eq (db : DB) (sku : String) :
    totalStockFor db sku = stockSum sku db.batches := by
  rw [totalStockFor, foldl_add_eq Batch.quantity]
  simp [stockSum]

/-- The stock sum over a cons adds the head's quantity when it counts. -/
theorem stockSum_cons (sku : String) (b : Batch) (l : List Batch) :
    stockSum sku (b :: l)
      = (if countsForStock sku b = true then b.quantity else 0) + stockSum sku l := by
  by_cases h : countsForStock sku b = true <;> simp [stockSum, List.filter_cons, h]

/-- The stock sum over an appended singleton. -/
theorem stockSum_append_single (sku : String) (l : List Batch) (x : Batch) :
    stockSum sku (l ++ [x])
      = stockSum sku l + (if countsForStock sku x = true then x.quantity else 0) := by
  by_cases h : countsForStock sku x = true <;>
    simp [stockSum, List.filter_append, List.filter_cons, h]

/-- `putBatch` on a cons. -/
theorem putBatch_cons (a : Batch) (l : List Batch) (u : Batch) :
    putBatch (a :: l) u = (if a.id = u.id then u else a) :: putBatch l u := rfl

/-- `putBatch` with a key that hits nothing is the identity. -/
theorem putBatch_eq_self (l : List Batch) (u : Batch)
    (h : ∀ c ∈ l, c.id ≠ u.id) : putBatch l u = l := by
  induction l with
  | nil => rfl
  | cons a rest ih =>
    rw [putBatch_cons, if_neg (h a (List.mem_cons_self a rest)),
      ih (fun c hc => h c (List.mem_cons_of_mem a hc))]

/-- A `put` never changes the key sequence of the store. -/
theorem putBatch_ids (l : List Batch) (u : Batch) :
    (putBatch l u).map Batch.id = l.map Batch.id := by
  induction l with
  | nil => rfl
  | cons a rest ih =>
    rw [putBatch_cons, List.map_cons, List.map_cons, ih]
    by_cases h : a.id = u.id
    · rw [if_pos h, h]
    · rw [if_neg h]

/-- A record whose key differs from the put key survives a `put`. -/
theorem mem_putBatch_of_ne (l : List Batch) (u c : Batch)
    (hc : c ∈ l) (hne : c.id ≠ u.id) : c ∈ putBatch l u := by
  induction l with
  | nil => cases hc
  | cons a rest ih =>
    rw [putBatch_cons]
    rcases List.mem_cons.mp hc with rfl | hcrest
    · rw [if_neg hne]; exact List.mem_cons_self c _
    · exact List.mem_cons_of_mem _ (ih hcrest)

/-- Putting an update with the key of a stored record `b` (and the same
stock filter status) moves the filtered sum by the quantity difference. -/
theorem stockSum_putBatch (sku : String) (u b : Batch)
    (hid : u.id = b.id) (hcnt : countsForStock sku u = countsForStock sku b) :
    ∀ acc : List Batch, (acc.map Batch.id).Nodup → b ∈ acc →
      stockSum sku (putBatch acc u) = stockSum sku acc
        + (if countsForStock sku u = true then u.quantity - b.quantity else 0) := by
  intro acc
  induction acc with
  | nil => intro _ hb; cases hb
  | cons a rest ih =>
    intro hnd hb
    rw [List.map_cons, List.nodup_cons] at hnd
    rw [putBatch_cons]
    rcases List.mem_cons.mp hb with rfl | hbrest
    · rw [if_pos hid.symm]
      have hrest_ne : ∀ c ∈ rest, c.id ≠ u.id := by
        intro c hc hceq
        exact hnd.1 (hid ▸ hceq ▸ List.mem_map_of_mem Batch.id hc)
      rw [putBatch_eq_self rest u hrest_ne, stockSum_cons, stockSum_cons, hcnt]
      by_cases hc : countsForStock sku b = true
      · rw [if_pos hc, if_pos hc, if_pos hc]; ring
      · rw [if_neg hc, if_neg hc, if_neg hc]; ring
    · have hne : a.id ≠ u.id := by
        intro h
        refine hnd.1 ?_
        rw [h, hid]
        exact List.mem_map_of_mem Batch.id hbrest
      rw [if_neg hne, stockSum_cons, stockSum_cons, ih hnd.2 hbrest]
      ring

/-- Quantity sum over a cons. -/
theorem qtySum_cons (b : Batch) (l : List Batch) :
    qtySum (b :: l) = b.quantity + qtySum l := by
  simp [qtySum]

/-- A list of non-negative quantities sums to a non-negative total. -/
theorem qtySum_nonneg (l : List Batch) (h : ∀ b ∈ l, 0 ≤ b.quantity) :
    0 ≤ qtySum l := by
  refine List.sum_nonneg ?_
  intro q hq
  rcases List.mem_map.mp hq with ⟨b, hb, rfl⟩
  exact h b hb

/-- Permuting a batch list keeps its quantity sum. -/
theorem qtySum_perm {l₁ l₂ : List Batch} (h : l₁.Perm l₂) :
    qtySum l₁ = qtySum l₂ :=
  (h.map Batch.quantity).sum_eq

/-- The FIFO eligibility filter is the stock filter plus positivity. -/
theorem eligible_decomp (sku : String) (b : Batch) :
    eligibleForSale sku b = (countsForStock sku b && decide (0 < b.quantity)) := by
  cases h1 : b.product_sku == sku <;> cases h2 : decide (0 < b.quantity) <;>
    cases h3 : strStartsWith b.lot "DEV-" <;>
    simp [eligibleForSale, countsForStock, h1, h2, h3]

/-- Under non-negative quantities, dropping the zero-quantity batches does
not change the stock total: the eligible sum is the stock sum. -/
theorem qtySum_eligible_eq_stockSum (sku : String) (l : List Batch)
    (h : ∀ b ∈ l, 0 ≤ b.quantity) :
    qtySum (l.filter (eligibleForSale sku)) = stockSum sku l := by
  induction l with
  | nil => simp [qtySum, stockSum]
  | cons a rest ih =>
    have hrest := ih (fun b hb => h b (List.mem_cons_of_mem a hb))
    rw [stockSum_cons]
    by_cases hc : countsForStock sku a = true
    · by_cases hp : 0 < a.quantity
      · rw [List.filter_cons_of_pos (by rw [eligible_decomp, hc, decide_eq_true hp]; rfl),
          qtySum_cons, hrest, if_pos hc]
      · have hz : a.quantity = 0 :=
          le_antisymm (not_lt.mp hp) (h a (List.mem_cons_self a rest))
        rw [List.filter_cons_of_neg (by rw [eligible_decomp, hc, decide_eq_false hp]; simp),
          hrest, if_pos hc, hz, zero_add]
    · rw [List.filter_cons_of_neg (by rw [eligible_decomp]; simp [hc]),
        hrest, if_neg hc, zero_add]

/-- Walking the FIFO loop over a list of distinct store records and
putting the results back removes exactly the requested quantity from the
sku's stock total. -/
theorem fifo_stock_sum (sku : String) :
    ∀ (l : List Batch) (r : ℚ) (acc : List Batch),
      (acc.map Batch.id).Nodup →
      (∀ b ∈ l, b ∈ acc) →
      ((l.map Batch.id).Nodup) →
      (∀ b ∈ l, countsForStock sku b = true) →
      0 ≤ r → r ≤ qtySum l →
      (∀ b ∈ l, 0 ≤ b.quantity) →
      stockSum sku ((fifoLoop l r).2.foldl putBatch acc) = stockSum sku acc - r := by
  intro l
  induction l with
  | nil =>
    intro r acc _ _ _ _ hr0 hrle _
    have hr : r = 0 := le_antisymm (by simpa [qtySum] using hrle) hr0
    simp [fifoLoop, hr]
  | cons b rest ih =>
    intro r acc hnd hsub hlnd hcnt hr0 hrle hq
    rw [List.map_cons, List.nodup_cons] at hlnd
    by_cases hr : r ≤ 0
    · have hz : r = 0 := le_antisymm hr hr0
      simp [fifoLoop, hr, hz]
    · have hunfold : (fifoLoop (b :: rest) r).2
          = { b with quantity := b.quantity - min b.quantity r }
              :: (fifoLoop rest (r - min b.quantity r)).2 := by
        simp [fifoLoop, hr]
      rw [hunfold, List.foldl_cons]
      set u : Batch := { b with quantity := b.quantity - min b.quantity r } with hu
      have hbacc : b ∈ acc := hsub b (List.mem_cons_self b rest)
      have hids : (putBatch acc u).map Batch.id = acc.map Batch.id := putBatch_ids acc u
      have hrec := ih (r - min b.quantity r) (putBatch acc u)
        (by rw [hids]; exact hnd)
        (by
          intro c hc
          refine mem_putBatch_of_ne acc u c (hsub c (List.mem_cons_of_mem b hc)) ?_
          intro hceq
          exact hlnd.1 (hceq ▸ List.mem_map_of_mem Batch.id hc))
        hlnd.2
        (fun c hc => hcnt c (List.mem_cons_of_mem b hc))
        (sub_nonneg.mpr (min_le_right b.quantity r))
        (by
          rcases min_cases b.quantity r with ⟨hm, hble⟩ | ⟨hm, hlt⟩
          · rw [hm]
            rw [qtySum_cons] at hrle
            linarith
          · rw [hm, sub_self]
            exact qtySum_nonneg rest (fun c hc => hq c (List.mem_cons_of_mem b hc)))
        (fun c hc => hq c (List.mem_cons_of_mem b hc))
      rw [hrec]
      have hput := stockSum_putBatch sku u b rfl rfl acc hnd hbacc
      rw [hput,
        if_pos (show countsForStock sku u = true from hcnt b (List.mem_cons_self b rest)),
        show u.quantity = b.quantity - b.quantity ⊓ r from rfl]
      ring

/-- An accepted venta removes exactly the clamped quantity from the sku's
saleable stock total. -/
theorem venta_stock_decrement (p : Payload) (db : DB) (product : Product)
    (hev : p.event = "venta") (hsku : strTruthy p.sku = true)
    (hname : strTruthy p.name = true)
    (hpr : db.products.find? (fun pr => pr.sku == payloadSku p) = some product)
    (hnn : nonnegQty db) (hnd : (db.batches.map Batch.id).Nodup)
    (hstock : payloadQty p ≤ totalStockFor db (payloadSku p)) :
    (handleProcessEvent p db).1 = PResult.ok ∧
    (handleProcessEvent p db).2.sales
      = db.sales ++ [venSale p db (jsQOr product.default_sale_price (payloadPrice p))] ∧
    totalStockFor (handleProcessEvent p db).2 (payloadSku p)
      = totalStockFor db (payloadSku p) - payloadQty p := by
  have hnot : ¬ totalStockFor db (payloadSku p) < payloadQty p := not_lt.mpr hstock
  refine ⟨?_, ?_, ?_⟩
  · simp [handleProcessEvent, hev, hsku, hname, hpr, hnot]
  · simp [handleProcessEvent, hev, hsku, hname, hpr, hnot, venSale]
  · have hres : (handleProcessEvent p db).2.batches
        = ((fifoLoop (sortByCreated ((db.batches).filter (eligibleForSale (payloadSku p))))
            (payloadQty p)).2).foldl putBatch db.batches := by
      simp [handleProcessEvent, hev, hsku, hname, hpr, hnot]
    have hperm : (sortByCreated ((db.batches).filter (eligibleForSale (payloadSku p)))).Perm
        ((db.batches).filter (eligibleForSale (payloadSku p))) := sortByCreated_perm _
    have hfilnd : (((db.batches).filter (eligibleForSale (payloadSku p))).map Batch.id).Nodup :=
      ((List.filter_sublist db.batches).map Batch.id).nodup hnd
    rw [totalStock_eq, totalStock_eq, hres]
    refine fifo_stock_sum (payloadSku p) _ (payloadQty p) db.batches hnd ?_ ?_ ?_ ?_ ?_ ?_
    · intro b hb
      exact (List.mem_filter.mp (hperm.mem_iff.mp hb)).1
    · exact ((hperm.map Batch.id).nodup_iff).mpr hfilnd
    · intro b hb
      have h2 := (List.mem_filter.mp (hperm.mem_iff.mp hb)).2
      rw [eligible_decomp] at h2
      simp only [Bool.and_eq_true] at h2
      exact h2.1
    · exact le_trans zero_le_one (le_max_left 1 _)
    · rw [qtySum_perm hperm,
        qtySum_eligible_eq_stockSum (payloadSku p) db.batches hnn, ← totalStock_eq]
      exact hstock
    · intro b hb
      exact hnn b (List.mem_filter.mp (hperm.mem_iff.mp hb)).1

/-- A lot literally tagged `UNDO-…` never starts with `DEV-`. -/
theorem undo_lot_not_dev (s : String) : strStartsWith ("UNDO-" ++ s) "DEV-" = false := by
  rw [strStartsWith, String.data_append]
  rfl

/-- A successful undo of a found, non-cancelled sale: ok result, the sale
flipped in place (record kept, store length unchanged), the compensating
`UNDO-` batch priced from `batches_used[0]` appended, and the sku's stock
total raised by the undone quantity. -/
theorem handleUndoSale_success (ev : SaleEventRef) (db : DB) (sale : Sale)
    (hfind : db.sales.find? (fun s => s.id == ev.id) = some sale)
    (hst : sale.status ≠ "cancelled") :
    (handleUndoSale ev db).1 = PResult.ok ∧
    (handleUndoSale ev db).2.sales
      = db.sales.map (fun s => if s.id = ev.id then { s with status := "cancelled" } else s) ∧
    (handleUndoSale ev db).2.sales.length = db.sales.length ∧
    (handleUndoSale ev db).2.batches = db.batches ++
      [{ id := db.nextBatchId, product_sku := ev.sku
         lot := "UNDO-" ++ toString db.nextReturnId, quantity := ev.quantity
         purchase_price :=
           match sale.batches_used.head? with
           | some bu => jsQOr bu.purchase_price 0
           | none => 0
         expiry := none, created_at := db.clock, return_id := some db.nextReturnId }] ∧
    totalStockFor (handleUndoSale ev db).2 ev.sku
      = totalStockFor db ev.sku + ev.quantity := by
  have hb : (handleUndoSale ev db).2.batches = db.batches ++
      [{ id := db.nextBatchId, product_sku := ev.sku
         lot := "UNDO-" ++ toString db.nextReturnId, quantity := ev.quantity
         purchase_price :=
           match sale.batches_used.head? with
           | some bu => jsQOr bu.purchase_price 0
           | none => 0
         expiry := none, created_at := db.clock, return_id := some db.nextReturnId }] := by
    simp [handleUndoSale, hfind, hst]
  refine ⟨?_, ?_, ?_, hb, ?_⟩
  · simp [handleUndoSale, hfind, hst]
  · simp [handleUndoSale, hfind, hst]
  · simp [handleUndoSale, hfind, hst]
  · rw [totalStock_eq, totalStock_eq, hb, stockSum_append_single]
    rw [if_pos (by simp [countsForStock, undo_lot_not_dev])]

/-- After a successful undo, a second undo of the same Sale id fails with
the already-cancelled error and changes nothing. -/
theorem handleUndoSale_idem (ev : SaleEventRef) (db : DB) (sale : Sale)
    (hfind : db.sales.find? (fun s => s.id == ev.id) = some sale)
    (hst : sale.status ≠ "cancelled") :
    (handleUndoSale ev (handleUndoSale ev db).2).1 = PResult.errSaleNotFoundOrCancelled ∧
    (handleUndoSale ev (handleUndoSale ev db).2).2 = (handleUndoSale ev db).2 := by
  have hsales := (handleUndoSale_success ev db sale hfind hst).2.1
  have hfind2 : (handleUndoSale ev db).2.sales.find? (fun s => s.id == ev.id)
      = some { sale with status := "cancelled" } := by
    rw [hsales, List.find?_map]
    have hcomp : ((fun s : Sale => s.id == ev.id) ∘
        (fun s => if s.id = ev.id then { s with status := "cancelled" } else s))
        = fun s : Sale => s.id == ev.id := by
      funext s
      by_cases h : s.id = ev.id <;> simp [Function.comp, h]
    rw [hcomp, hfind]
    have hid : sale.id = ev.id := by simpa using List.find?_some hfind
    simp [hid]
  generalize hg : (handleUndoSale ev db).2 = db1 at hfind2 ⊢
  constructor <;> simp [handleUndoSale, hfind2]

/-- Undoing the sale created by an accepted venta puts the sku's stock
back exactly where it was before the venta. -/
theorem venta_then_undo (p : Payload) (db : DB) (product : Product)
    (hev : p.event = "venta") (hsku : strTruthy p.sku = true)
    (hname : strTruthy p.name = true)
    (hpr : db.products.find? (fun pr => pr.sku == payloadSku p) = some product)
    (hnn : nonnegQty db) (hnd : (db.batches.map Batch.id).Nodup)
    (hstock : payloadQty p ≤ totalStockFor db (payloadSku p))
    (hfresh : ∀ s ∈ db.sales, (s.id == ("SALE-" ++ toString db.clock)) = false) :
    (handleUndoSale
        ⟨"SALE-" ++ toString db.clock, payloadSku p, jsOrStr p.name "", payloadQty p⟩
        (handleProcessEvent p db).2).1 = PResult.ok ∧
    totalStockFor (handleUndoSale
        ⟨"SALE-" ++ toString db.clock, payloadSku p, jsOrStr p.name "", payloadQty p⟩
        (handleProcessEvent p db).2).2 (payloadSku p)
      = totalStockFor db (payloadSku p) := by
  obtain ⟨hok, hsl, hstk⟩ :=
    venta_stock_decrement p db product hev hsku hname hpr hnn hnd hstock
  have hfind1 : (handleProcessEvent p db).2.sales.find?
      (fun s => s.id == ("SALE-" ++ toString db.clock))
      = some (venSale p db (jsQOr product.default_sale_price (payloadPrice p))) := by
    rw [hsl, List.find?_append]
    have h1 : db.sales.find? (fun s => s.id == ("SALE-" ++ toString db.clock)) = none :=
      List.find?_eq_none.mpr (fun x hx => by simp [hfresh x hx])
    rw [h1]
    simp [venSale]
  have hne : (venSale p db (jsQOr product.default_sale_price (payloadPrice p))).status
      ≠ "cancelled" := by simp [venSale]
  have hu := handleUndoSale_success
    ⟨"SALE-" ++ toString db.clock, payloadSku p, jsOrStr p.name "", payloadQty p⟩
    (handleProcessEvent p db).2 _ hfind1 hne
  refine ⟨hu.1, ?_⟩
  have hst2 := hu.2.2.2.2
  rw [hst2, hstk]
  ring

/-- C7: undoing a found, non-cancelled Sale succeeds exactly once: it
flips the Sale's status to cancelled in place (the record is kept, the
store length unchanged), appends one compensating `UNDO-` batch carrying
the original purchase price from `batches_used[0]` and the undone
quantity, raising the sku's stock by that quantity — so an undo right
after an accepted venta restores the stock to its value before the sale —
and a second undo of the same Sale id fails with the already-cancelled
error and changes nothing.  The §8.10 scenario (ingreso 10 at price 1,
venta 4, undo) lands on stock 10, a cancelled Sale, and an `UNDO-1` batch
priced 1. -/
theorem undo_sale_exact_inverse :
    (∀ (ev : SaleEventRef) (db : DB) (sale : Sale),
      db.sales.find? (fun s => s.id == ev.id) = some sale →
      sale.status ≠ "cancelled" →
      (handleUndoSale ev db).1 = PResult.ok ∧
      (handleUndoSale ev db).2.sales
        = db.sales.map (fun s => if s.id = ev.id then { s with status := "cancelled" } else s) ∧
      (handleUndoSale ev db).2.sales.length = db.sales.length ∧
      (handleUndoSale ev db).2.batches = db.batches ++
        [{ id := db.nextBatchId, product_sku := ev.sku
           lot := "UNDO-" ++ toString db.nextReturnId, quantity := ev.quantity
           purchase_price :=
             match sale.batches_used.head? with
             | some bu => jsQOr bu.purchase_price 0
             | none => 0
           expiry := none, created_at := db.clock, return_id := some db.nextReturnId }] ∧
      totalStockFor (handleUndoSale ev db).2 ev.sku
        = totalStockFor db ev.sku + ev.quantity ∧
      (handleUndoSale ev (handleUndoSale ev db).2).1 = PResult.errSaleNotFoundOrCancelled ∧
      (handleUndoSale ev (handleUndoSale ev db).2).2 = (handleUndoSale ev db).2) ∧
    (∀ (p : Payload) (db : DB) (product : Product),
      p.event = "venta" → strTruthy p.sku = true → strTruthy p.name = true →
      db.products.find? (fun pr => pr.sku == payloadSku p) = some product →
      nonnegQty db → (db.batches.map Batch.id).Nodup →
      payloadQty p ≤ totalStockFor db (payloadSku p) →
      (∀ s ∈ db.sales, (s.id == ("SALE-" ++ toString db.clock)) = false) →
      totalStockFor (handleUndoSale
          ⟨"SALE-" ++ toString db.clock, payloadSku p, jsOrStr p.name "", payloadQty p⟩
          (handleProcessEvent p db).2).2 (payloadSku p)
        = totalStockFor db (payloadSku p)) ∧
    (totalStockFor dbBeforeUndo "GALX-001" = 6 ∧
     totalStockFor dbAfterUndo "GALX-001" = 10 ∧
     dbAfterUndo.sales.map (fun s => (s.id, s.status)) = [("SALE-1", "cancelled")] ∧
     dbAfterUndo.batches.map (fun b => (b.lot, b.quantity, b.purchase_price))
       = [("LOT-0", 6, 1), ("UNDO-1", 4, 1)] ∧
     (handleUndoSale undoRef dbAfterUndo).1 = PResult.errSaleNotFoundOrCancelled ∧
     (handleUndoSale undoRef dbAfterUndo).2 = dbAfterUndo) := by
  refine ⟨?_, ?_, by decide, by decide, by decide, by decide, by decide, by decide⟩
  · intro ev db sale hfind hst
    obtain ⟨h1, h2, h3, h4, h5⟩ := handleUndoSale_success ev db sale hfind hst
    obtain ⟨h6, h7⟩ := handleUndoSale_idem ev db sale hfind hst
    exact ⟨h1, h2, h3, h4, h5, h6, h7⟩
  · intro p db product hev hsku hname hpr hnn hnd hstock hfresh
    exact (venta_then_undo p db product hev hsku hname hpr hnn hnd hstock hfresh).2

/-- C7 witness: the general undo theorem applied to `SALE-1` of the
§8.10 state. -/
theorem undo_sale_exact_inverse_witness :
    (handleUndoSale undoRef dbBeforeUndo).1 = PResult.ok ∧
    totalStockFor (handleUndoSale undoRef dbBeforeUndo).2 "GALX-001"
      = totalStockFor dbBeforeUndo "GALX-001" + 4 :=
  ⟨(undo_sale_exact_inverse.1 undoRef dbBeforeUndo
      { id := "SALE-1", timestamp := 1, sku := "GALX-001", product_name := "Galletas X"
        quantity := 4, sale_price := 3 / 2, total := 6, status := "completed"
        batches_used := [{ batchId := 1, quantity := 4, purchase_price := 1 }] }
      (by decide) (by decide)).1,
   (undo_sale_exact_inverse.1 undoRef dbBeforeUndo
      { id := "SALE-1", timestamp := 1, sku := "GALX-001", product_name := "Galletas X"
        quantity := 4, sale_price := 3 / 2, total := 6, status := "completed"
        batches_used := [{ batchId := 1, quantity := 4, purchase_price := 1 }] }
      (by decide) (by decide)).2.2.2.2.1⟩

/-- C8 witness: the amended theorem applied to the devolución of 3. -/
theorem devolucion_batch_tagged_not_saleable_witness :
    (handleProcessEvent pDevolucion3 dbSoldOut).1 = PResult.ok ∧
    totalStockFor (handleProcessEvent pDevolucion3 dbSoldOut).2 "GALX-001"
      = totalStockFor dbSoldOut "GALX-001" :=
  ⟨(devolucion_batch_tagged_not_saleable pDevolucion3 dbSoldOut rfl (by decide) (by decide)
      (by decide)).1,
   (devolucion_batch_tagged_not_saleable pDevolucion3 dbSoldOut rfl (by decide) (by decide)
      (by decide)).2.2.2 "GALX-001"⟩

end Bodega
